import Mathlib

/-!
Verification of the geospatial proximity core and surrounding utilities of the
parking-app frontend.  Coordinates, radii and computed distances are embedded
as rationals wherever the source only compares and copies them; the Haversine
distance function is embedded over the real numbers.
-/

/-! ### Borough classifier (apiUtils.getBoroughFromCoordinates) -/

/-- Shallow embedding of apiUtils.getBoroughFromCoordinates: an ordered chain
of half-plane tests, first match wins, defaulting to "unknown". -/
def getBoroughFromCoordinates (lat lon : ℚ) : String :=
  if 40.7589 < lat ∧ -73.9441 < lon then "manhattan"
  else if 40.6892 < lat ∧ lat ≤ 40.7394 ∧ lon ≤ -73.8648 then "queens"
  else if 40.5706 < lat ∧ lat ≤ 40.7394 ∧ lon ≤ -73.8648 then "brooklyn"
  else if 40.7896 < lat ∧ lon ≤ -73.8648 then "bronx"
  else if lat ≤ 40.5706 then "staten_island"
  else "unknown"

/-! ### Validation (validation.isValidRadius etc.) and the coordinate form.

A value of type Option ℚ models the result of coercing the string-or-number
input to a JS number: none models NaN (unparsable or empty input). -/

/-- Shallow embedding of validation.isValidLatitude. -/
def isValidLatitude (lat : Option ℚ) : Bool :=
  match lat with
  | none => false
  | some num => decide (-90 ≤ num) && decide (num ≤ 90)

/-- Shallow embedding of validation.isValidLongitude. -/
def isValidLongitude (lon : Option ℚ) : Bool :=
  match lon with
  | none => false
  | some num => decide (-180 ≤ num) && decide (num ≤ 180)

/-- Shallow embedding of validation.isValidRadius: the input must be a number
(not NaN), strictly positive, and at most 5000 meters. -/
def isValidRadius (radius : Option ℚ) : Bool :=
  match radius with
  | none => false
  | some num => decide (0 < num) && decide (num ≤ 5000)

/-- A map location as produced by the coordinate form. -/
structure MapLocation where
  latitude : ℚ
  longitude : ℚ
deriving DecidableEq, Repr

/-- Shallow embedding of CoordinateInput.validateInputs: all present fields
must validate; the radius is only checked when the radius field is shown.
An empty field and an unparsable field are both modelled by none. -/
def validateInputs (showRadius : Bool) (lat lon radius : Option ℚ) : Bool :=
  isValidLatitude lat && isValidLongitude lon &&
    (!showRadius || isValidRadius radius)

/-- Shallow embedding of CoordinateInput.handleSubmit: if validation fails the
handler returns before any location/radius is delivered (modelled as none);
otherwise the parsed location and radius are delivered to the search. -/
def handleSubmit (showRadius : Bool) (lat lon radius : Option ℚ) :
    Option (MapLocation × Option ℚ) :=
  if validateInputs showRadius lat lon radius then
    some (⟨lat.getD 0, lon.getD 0⟩, radius)
  else
    none

/-! ### Radius filter (apiUtils.filterByRadius) -/

/-- A geotagged result record with its attached computed distance, as consumed
by apiUtils.filterByRadius and apiUtils.sortByDistance. -/
structure RankedRecord where
  id : Nat
  distance : ℚ
deriving DecidableEq, Repr

/-- Shallow embedding of apiUtils.filterByRadius: keep exactly the items whose
distance is at most the radius. -/
def filterByRadius (items : List RankedRecord) (maxRadius : ℚ) : List RankedRecord :=
  items.filter (fun item => decide (item.distance ≤ maxRadius))

/-! ### Search history (storage.addToSearchHistory) -/

/-- A stored search-history entry. -/
structure SearchHistoryItem where
  id : String
  query : String
  location : MapLocation
  timestamp : String
  itemType : String
deriving DecidableEq, Repr

/-- Shallow embedding of storage.addToSearchHistory: drop stored items whose
query equals the new query, push the new item on the front, keep 20 items. -/
def addToSearchHistory (history : List SearchHistoryItem)
    (newItem : SearchHistoryItem) : List SearchHistoryItem :=
  let filteredHistory := history.filter (fun item => decide (item.query ≠ newItem.query))
  (newItem :: filteredHistory).take 20

/-! ### Nearest-match scan (api.getMeterRate in the client-only shim)

The source loop walks the raw meter-zone list keeping the current best
(item, distance) pair, replacing it only when a strictly smaller distance is
seen, and throws "No meter found" when the list is empty.  The distance to
the query center is supplied by the external geospatial module, embedded here
as an explicit function argument. -/

/-- One iteration of the getMeterRate loop body: replace the best pair iff
there is none yet or the new distance is strictly smaller. -/
def scanStep {α : Type} (dist : α → ℚ) (best : Option (α × ℚ)) (item : α) :
    Option (α × ℚ) :=
  match best with
  | none => some (item, dist item)
  | some (b, bd) => if dist item < bd then some (item, dist item) else some (b, bd)

/-- The getMeterRate scan over the raw record list. -/
def scanBest {α : Type} (dist : α → ℚ) (raw : List α) : Option (α × ℚ) :=
  raw.foldl (scanStep dist) none

/-- Shallow embedding of api.getMeterRate: scan for the nearest record and
signal the not-found error exactly when the scan produced no best pair. -/
def getMeterRate {α : Type} (dist : α → ℚ) (raw : List α) :
    Except String (α × ℚ) :=
  match scanBest dist raw with
  | none => Except.error "No meter found"
  | some best => Except.ok best

/-- Direct recursion equivalent of the scan once a first best pair exists,
used to reason about scanBest by induction. -/
def scanGo {α : Type} (dist : α → ℚ) (best : α × ℚ) : List α → α × ℚ
  | [] => best
  | y :: ys =>
    if dist y < best.2 then scanGo dist (y, dist y) ys else scanGo dist best ys

/-! ### Distance sort (apiUtils.sortByDistance)

The source copies the input array and sorts the copy with the comparator
(a, b) => a.distance - b.distance.  A comparator returning a non-positive
number exactly when a.distance is at most b.distance makes the required
stable JS sort coincide with a stable sort under that boolean relation. -/

/-- The boolean order induced by the comparator (a, b) => a.distance - b.distance. -/
def distLE (a b : RankedRecord) : Bool :=
  decide (a.distance ≤ b.distance)

/-- Shallow embedding of apiUtils.sortByDistance: a stable sort of (a copy
of) the input by ascending distance. -/
def sortByDistance (items : List RankedRecord) : List RankedRecord :=
  items.mergeSort distLE

/-! ### Heap model for the mutation claims

JS arrays are references into a mutable heap.  The heap is a list of cells,
each holding an array of records; an array value is a cell index.  The two
utilities are re-embedded as operations on this heap: the spread [...items]
allocates a fresh cell holding a copy, Array.prototype.sort mutates exactly
the cell it is invoked on, and Array.prototype.filter allocates a fresh cell
for its result without touching its receiver. -/

/-- A JS heap of array cells. -/
abbrev JSHeap : Type := List (List RankedRecord)

/-- Read the array held by a cell (out-of-range reads model no cell). -/
def readArr (h : JSHeap) (r : Nat) : List RankedRecord :=
  List.getD h r []

/-- Allocate a fresh cell holding v; returns the new heap and the new ref. -/
def allocArr (h : JSHeap) (v : List RankedRecord) : JSHeap × Nat :=
  (h ++ [v], List.length h)

/-- Overwrite the array held by a cell. -/
def writeArr (h : JSHeap) (r : Nat) (v : List RankedRecord) : JSHeap :=
  List.set h r v

/-- The spread [...items]: allocate a fresh cell with a copy of the array. -/
def spreadCopy (h : JSHeap) (r : Nat) : JSHeap × Nat :=
  allocArr h (readArr h r)

/-- Array.prototype.sort with the distance comparator: mutates in place the
cell it is invoked on. -/
def sortInPlace (h : JSHeap) (r : Nat) : JSHeap :=
  writeArr h r ((readArr h r).mergeSort distLE)

/-- Heap-level embedding of apiUtils.sortByDistance: spread-copy the input
array, then sort the copy in place and return the copy's ref. -/
def sortByDistanceCall (h : JSHeap) (items : Nat) : JSHeap × Nat :=
  let c := spreadCopy h items
  (sortInPlace c.1 c.2, c.2)

/-- Heap-level embedding of apiUtils.filterByRadius: Array.prototype.filter
allocates a fresh cell holding the kept items. -/
def filterByRadiusCall (h : JSHeap) (items : Nat) (maxRadius : ℚ) :
    JSHeap × Nat :=
  allocArr h ((readArr h items).filter (fun item => decide (item.distance ≤ maxRadius)))

/-! ### Shape-sniffing response mapping (api.getParkingSigns, axios variant)

The response body is an arbitrary JSON value.  The function first selects a
record list: the body itself if it is an array, else the first array found
under the keys results, data, parking_signs, signs, else the empty list; it
then maps every record to a ParkingSign, coercing fields JS-style.  JS
numbers are modelled as Option ℚ with none standing for NaN, undefined as
the missing Option JsonValue, and the JS runtime's string-to-number parse as
an explicit function argument. -/

/-- A JSON value as delivered by the HTTP layer. -/
inductive JsonValue where
  | null : JsonValue
  | bool : Bool → JsonValue
  | num : ℚ → JsonValue
  | str : String → JsonValue
  | arr : List JsonValue → JsonValue
  | obj : List (String × JsonValue) → JsonValue

/-- JS optional-chaining property access v?.key (used on the response body):
undefined (none) on a nullish or primitive receiver, never an error. -/
def getFieldOpt (v : Option JsonValue) (key : String) : Option JsonValue :=
  match v with
  | some (JsonValue.obj fields) =>
    (fields.find? (fun kv => kv.1 == key)).map (fun kv => kv.2)
  | _ => none

/-- JS plain property access v.key (used on the list items): throws a
TypeError when the receiver is null or undefined; other primitive receivers
are boxed and yield undefined; an object looks the key up. -/
def getField (v : Option JsonValue) (key : String) :
    Except String (Option JsonValue) :=
  match v with
  | none => Except.error "TypeError"
  | some JsonValue.null => Except.error "TypeError"
  | some (JsonValue.obj fields) =>
    Except.ok ((fields.find? (fun kv => kv.1 == key)).map (fun kv => kv.2))
  | some _ => Except.ok none

/-- The JS nullish-coalescing operator a ?? b on already-evaluated operands. -/
def coalesce (a b : Option JsonValue) : Option JsonValue :=
  match a with
  | none => b
  | some JsonValue.null => b
  | some v => some v

/-- The JS nullish-coalescing operator a ?? b over throwing operands: a is
evaluated first and its error propagates; b is only evaluated (and may only
throw) when a is nullish. -/
def coalesceField (a : Except String (Option JsonValue))
    (b : Unit → Except String (Option JsonValue)) :
    Except String (Option JsonValue) :=
  match a with
  | Except.error e => Except.error e
  | Except.ok none => b ()
  | Except.ok (some JsonValue.null) => b ()
  | Except.ok (some v) => Except.ok (some v)

/-- Array.isArray guard combined with use of the array. -/
def asArray (v : Option JsonValue) : Option (List JsonValue) :=
  match v with
  | some (JsonValue.arr xs) => some xs
  | _ => none

mutual

/-- JS string conversion String(v), parameterized by the runtime's
number-to-string formatting numToStr (JS decimal rendering of a double,
external to the source like the string-to-number parse): a plain object
converts to the fixed object tag, an array to its comma-joined elements. -/
def jsToString (numToStr : ℚ → String) : JsonValue → String
  | JsonValue.null => "null"
  | JsonValue.bool b => if b then "true" else "false"
  | JsonValue.num q => numToStr q
  | JsonValue.str s => s
  | JsonValue.arr xs => String.intercalate "," (jsListToStrings numToStr xs)
  | JsonValue.obj _ => "[object Object]"

/-- Elementwise conversion used by Array.prototype.join, where a null
element becomes the empty string. -/
def jsListToStrings (numToStr : ℚ → String) : List JsonValue → List String
  | [] => []
  | JsonValue.null :: rest => "" :: jsListToStrings numToStr rest
  | v :: rest => jsToString numToStr v :: jsListToStrings numToStr rest

end

/-- JS numeric coercion Number(v): undefined gives NaN (none), null gives 0,
booleans give 0 or 1, strings and objects go through their string form and
the runtime parse. -/
def jsToNumber (parseNum : String → Option ℚ) (numToStr : ℚ → String)
    (v : Option JsonValue) : Option ℚ :=
  match v with
  | none => none
  | some JsonValue.null => some 0
  | some (JsonValue.bool b) => some (if b then 1 else 0)
  | some (JsonValue.num q) => some q
  | some (JsonValue.str s) => parseNum s
  | some (JsonValue.arr xs) => parseNum (jsToString numToStr (JsonValue.arr xs))
  | some (JsonValue.obj fields) =>
    parseNum (jsToString numToStr (JsonValue.obj fields))

/-- Template-literal interpolation of a JS number with the runtime's
number formatting, where NaN prints as NaN. -/
def jsNumToString (numToStr : ℚ → String) (q : Option ℚ) : String :=
  match q with
  | none => "NaN"
  | some q => numToStr q

/-- The typed record produced for each mapped response item. -/
structure ParkingSign where
  id : String
  latitude : Option ℚ
  longitude : Option ℚ
  distance : Option ℚ
  description : String
  street_name : String
  sign_type : Option JsonValue
  regulations : Option (List JsonValue)
  borough : Option JsonValue
  created_at : Option JsonValue
  updated_at : Option JsonValue

/-- The per-item mapping of api.getParkingSigns: JS-style field coercions
with the fallback key chains of the source.  All item accesses are plain
(not optional-chaining), so a null list element makes the first access, and
hence the whole mapping, throw a TypeError, as the program does. -/
def toParkingSign (parseNum : String → Option ℚ) (numToStr : ℚ → String)
    (item : JsonValue) (index : Nat) : Except String ParkingSign := do
  let latV ← coalesceField (getField (some item) "latitude")
    (fun _ => getField (some item) "lat")
  let latitude := jsToNumber parseNum numToStr latV
  let lonV ← coalesceField (getField (some item) "longitude")
    (fun _ => getField (some item) "lon")
  let longitude := jsToNumber parseNum numToStr lonV
  let distV ← coalesceField (coalesceField (getField (some item) "distance")
    (fun _ => getField (some item) "dist"))
    (fun _ => Except.ok (some (JsonValue.num 0)))
  let distance := jsToNumber parseNum numToStr distV
  let streetV ← coalesceField
    (coalesceField (getField (some item) "street_name")
      (fun _ => getField (some item) "street"))
    (fun _ => Except.ok (some (JsonValue.str "")))
  let street_name := jsToString numToStr (streetV.getD JsonValue.null)
  let descV ← coalesceField
    (coalesceField (getField (some item) "description")
      (fun _ => do
        let regsV ← getField (some item) "regulations"
        match asArray regsV with
        | some xs => Except.ok (some (JsonValue.str
            (String.intercalate " " (jsListToStrings numToStr xs))))
        | none => Except.ok (some (JsonValue.str ""))))
    (fun _ => Except.ok (some (JsonValue.str "")))
  let description := jsToString numToStr (descV.getD JsonValue.null)
  let idV ← coalesceField (coalesceField (getField (some item) "id")
    (fun _ => getField (some item) "sign_id"))
    (fun _ => Except.ok (some (JsonValue.str
      (jsNumToString numToStr latitude ++ "," ++
        jsNumToString numToStr longitude ++ "," ++ toString index))))
  let signTypeV ← getField (some item) "sign_type"
  let regsFieldV ← getField (some item) "regulations"
  let boroughV ← getField (some item) "borough"
  let createdV ← getField (some item) "created_at"
  let updatedV ← getField (some item) "updated_at"
  return { id := jsToString numToStr (idV.getD JsonValue.null)
           latitude := latitude
           longitude := longitude
           distance := distance
           description := description
           street_name := street_name
           sign_type := signTypeV
           regulations := asArray regsFieldV
           borough := boroughV
           created_at := createdV
           updated_at := updatedV }

/-- The record-list selection of api.getParkingSigns: the body itself if it
is an array, else the first array found by the optional-chaining probes
raw?.results, raw?.data, raw?.parking_signs, raw?.signs, else the empty
list. -/
def selectList (raw : JsonValue) : List JsonValue :=
  match raw with
  | JsonValue.arr xs => xs
  | _ =>
    match asArray (getFieldOpt (some raw) "results") with
    | some xs => xs
    | none =>
      match asArray (getFieldOpt (some raw) "data") with
      | some xs => xs
      | none =>
        match asArray (getFieldOpt (some raw) "parking_signs") with
        | some xs => xs
        | none =>
          match asArray (getFieldOpt (some raw) "signs") with
          | some xs => xs
          | none => []

/-- Shallow embedding of the shape-sniffing api.getParkingSigns: select the
record list from the body, then map each item with its index; the first
item whose mapping throws aborts the whole call with that error, as the JS
map callback does. -/
def getParkingSigns (parseNum : String → Option ℚ) (numToStr : ℚ → String)
    (raw : JsonValue) : Except String (List ParkingSign) :=
  (selectList raw).enum.mapM (fun p => toParkingSign parseNum numToStr p.2 p.1)

/-! ### Haversine distance (apiUtils.calculateDistance)

The float computation is embedded over the real numbers.  Math.atan2 (y, x)
is the argument of the complex number x + y i, which agrees with the JS
definition on all inputs used here (both arguments are square roots, hence
non-negative) including atan2 0 0 = 0. -/

/-- The two-argument arctangent, embedded as the complex argument. -/
noncomputable def atan2 (y x : ℝ) : ℝ :=
  Complex.arg (Complex.ofReal x + Complex.ofReal y * Complex.I)

/-- The intermediate value a of the source: the haversine of the central
angle, with the source's angle conversions written out (the source binds the
converted latitudes and the two deltas to local constants first). -/
noncomputable def haversineA (lat1 lon1 lat2 lon2 : ℝ) : ℝ :=
  Real.sin ((lat2 - lat1) * Real.pi / 180 / 2) *
      Real.sin ((lat2 - lat1) * Real.pi / 180 / 2) +
    Real.cos (lat1 * Real.pi / 180) * Real.cos (lat2 * Real.pi / 180) *
      Real.sin ((lon2 - lon1) * Real.pi / 180 / 2) *
      Real.sin ((lon2 - lon1) * Real.pi / 180 / 2)

/-- Shallow embedding of apiUtils.calculateDistance: the haversine formula on
a sphere of radius 6371e3 meters; c is the source's central angle. -/
noncomputable def calculateDistance (lat1 lon1 lat2 lon2 : ℝ) : ℝ :=
  6371e3 * (2 * atan2 (Real.sqrt (haversineA lat1 lon1 lat2 lon2))
    (Real.sqrt (1 - haversineA lat1 lon1 lat2 lon2)))

/-! ## Theorems -/

theorem atan2_nonneg (y x : ℝ) (hy : 0 ≤ y) : 0 ≤ atan2 y x := by
  unfold atan2
  refine Complex.arg_nonneg_iff.mpr ?_
  simpa [Complex.add_im, Complex.ofReal_im, Complex.mul_im, Complex.I_im,
    Complex.I_re] using hy

theorem atan2_zero_one : atan2 0 1 = 0 := by
  unfold atan2
  simp [Complex.arg_one]

theorem haversineA_self (lat1 lon1 : ℝ) : haversineA lat1 lon1 lat1 lon1 = 0 := by
  simp [haversineA, sub_self]

theorem haversineA_sym (lat1 lon1 lat2 lon2 : ℝ) :
    haversineA lat1 lon1 lat2 lon2 = haversineA lat2 lon2 lat1 lon1 := by
  unfold haversineA
  rw [show (lat2 - lat1) * Real.pi / 180 / 2 =
      -((lat1 - lat2) * Real.pi / 180 / 2) by ring,
    show (lon2 - lon1) * Real.pi / 180 / 2 =
      -((lon1 - lon2) * Real.pi / 180 / 2) by ring,
    Real.sin_neg, Real.sin_neg]
  ring

theorem distLE_trans (a b c : RankedRecord) :
    distLE a b → distLE b c → distLE a c := by
  simp only [distLE, decide_eq_true_eq]
  exact le_trans

theorem distLE_total (a b : RankedRecord) : distLE a b || distLE b a := by
  simp only [distLE, Bool.or_eq_true, decide_eq_true_eq]
  exact le_total a.distance b.distance

theorem readArr_allocArr_old (h : JSHeap) (v : List RankedRecord) (r : Nat)
    (hr : r < List.length h) :
    readArr (allocArr h v).1 r = readArr h r := by
  simp only [readArr, allocArr]
  rw [List.getD_eq_getElem?_getD, List.getD_eq_getElem?_getD,
    List.getElem?_append_left hr]

theorem readArr_allocArr_new (h : JSHeap) (v : List RankedRecord) :
    readArr (allocArr h v).1 (List.length h) = v := by
  simp only [readArr, allocArr]
  rw [List.getD_eq_getElem?_getD, List.getElem?_append_right (le_refl _)]
  simp

theorem readArr_writeArr_ne (h : JSHeap) (r s : Nat) (v : List RankedRecord)
    (hne : r ≠ s) : readArr (writeArr h s v) r = readArr h r := by
  simp only [readArr, writeArr]
  rw [List.getD_eq_getElem?_getD, List.getD_eq_getElem?_getD,
    List.getElem?_set_ne (fun e => hne e.symm)]

theorem foldl_scanStep_some {α : Type} (dist : α → ℚ) :
    ∀ (xs : List α) (p : α × ℚ),
      xs.foldl (scanStep dist) (some p) = some (scanGo dist p xs) := by
  intro xs
  induction xs with
  | nil => intro p; rfl
  | cons y ys ih =>
    intro p
    simp only [List.foldl_cons, scanStep, scanGo]
    by_cases h : dist y < p.2
    · rw [if_pos h, if_pos h, ih]
    · rw [if_neg h, if_neg h, ih]

theorem scanBest_cons {α : Type} (dist : α → ℚ) (x : α) (xs : List α) :
    scanBest dist (x :: xs) = some (scanGo dist (x, dist x) xs) := by
  simp only [scanBest, List.foldl_cons, scanStep]
  exact foldl_scanStep_some dist xs (x, dist x)

theorem scanGo_spec {α : Type} (dist : α → ℚ) :
    ∀ (xs : List α) (p : α × ℚ), p.2 = dist p.1 →
      (scanGo dist p xs).2 = dist (scanGo dist p xs).1 ∧
      (scanGo dist p xs).2 ≤ p.2 ∧
      (∀ x ∈ xs, (scanGo dist p xs).2 ≤ dist x) ∧
      (scanGo dist p xs = p ∨
        ∃ l₁ l₂, xs = l₁ ++ (scanGo dist p xs).1 :: l₂ ∧
          (scanGo dist p xs).2 < p.2 ∧
          ∀ x ∈ l₁, (scanGo dist p xs).2 < dist x) := by
  intro xs
  induction xs with
  | nil =>
    intro p hp
    exact ⟨hp, le_refl _, by simp, Or.inl rfl⟩
  | cons y ys ih =>
    intro p hp
    by_cases h : dist y < p.2
    · have step : scanGo dist p (y :: ys) = scanGo dist (y, dist y) ys := by
        simp [scanGo, h]
      obtain ⟨h1, h2, h3, h4⟩ := ih (y, dist y) rfl
      rw [step]
      refine ⟨h1, le_trans h2 (le_of_lt h), ?_, ?_⟩
      · intro x hx
        rcases List.mem_cons.mp hx with hx | hx
        · subst hx; exact h2
        · exact h3 x hx
      · rcases h4 with h4 | ⟨l₁, l₂, e, hlt, hall⟩
        · refine Or.inr ⟨[], ys, ?_, ?_, by simp⟩
          · rw [h4]; rfl
          · rw [h4]; exact h
        · refine Or.inr ⟨y :: l₁, l₂, by nth_rewrite 1 [e]; rfl,
            lt_trans hlt h, ?_⟩
          intro x hx
          rcases List.mem_cons.mp hx with hx | hx
          · subst hx; exact hlt
          · exact hall x hx
    · have step : scanGo dist p (y :: ys) = scanGo dist p ys := by
        simp [scanGo, h]
      obtain ⟨h1, h2, h3, h4⟩ := ih p hp
      rw [step]
      refine ⟨h1, h2, ?_, ?_⟩
      · intro x hx
        rcases List.mem_cons.mp hx with hx | hx
        · subst hx; exact le_trans h2 (not_lt.mp h)
        · exact h3 x hx
      · rcases h4 with h4 | ⟨l₁, l₂, e, hlt, hall⟩
        · exact Or.inl h4
        · refine Or.inr ⟨y :: l₁, l₂, by nth_rewrite 1 [e]; rfl, hlt, ?_⟩
          intro x hx
          rcases List.mem_cons.mp hx with hx | hx
          · subst hx; exact lt_of_lt_of_le hlt (not_lt.mp h)
          · exact hall x hx

/-- C1 counterexample: on the Times Square coordinate the classifier does not
return "manhattan": the manhattan rule needs latitude above 40.7589 and
longitude above -73.9441, and 40.7580 and -73.9855 fail both. -/
theorem getBorough_timesSquare_ne_manhattan :
    getBoroughFromCoordinates (40.7580 : ℚ) (-73.9855 : ℚ) ≠ "manhattan" := by
  unfold getBoroughFromCoordinates
  norm_num
  decide

/-- C1 (amended): the borough classifier on the Times Square coordinate
(latitude 40.7580, longitude -73.9855) returns the label "unknown": no rule
of the classifier chain matches this point. -/
theorem getBorough_timesSquare_eq_unknown :
    getBoroughFromCoordinates (40.7580 : ℚ) (-73.9855 : ℚ) = "unknown" := by
  unfold getBoroughFromCoordinates
  norm_num

/-- C7: a radius is accepted by isValidRadius iff it is a number (not NaN)
strictly greater than 0 and at most 5000; moreover when the radius field is
shown, a submitted search implies the radius passed this validation, i.e.
invalid radii are rejected before any search is performed. -/
theorem isValidRadius_ok (lat lon radius : Option ℚ) :
    (isValidRadius radius = true ↔
      ∃ num : ℚ, radius = some num ∧ 0 < num ∧ num ≤ 5000) ∧
    (handleSubmit true lat lon radius ≠ none → isValidRadius radius = true) := by
  constructor
  · constructor
    · intro h
      match radius with
      | none => simp [isValidRadius] at h
      | some num =>
        simp only [isValidRadius, Bool.and_eq_true, decide_eq_true_eq] at h
        exact ⟨num, rfl, h.1, h.2⟩
    · rintro ⟨num, rfl, h1, h2⟩
      simp [isValidRadius, h1, h2]
  · intro h
    by_cases hv : validateInputs true lat lon radius = true
    · have hv2 := hv
      simp only [validateInputs, Bool.not_true, Bool.false_or,
        Bool.and_eq_true] at hv2
      exact hv2.2
    · exact absurd (by simp [handleSubmit, hv]) h

/-- C7 witness: the theorem applied at a concrete submitted search. -/
theorem isValidRadius_ok_witness : isValidRadius (some 100) = true :=
  (isValidRadius_ok (some 40) (some (-73)) (some 100)).2
    (by
      norm_num [handleSubmit, validateInputs, isValidLatitude,
        isValidLongitude, isValidRadius]
      simp)

/-- C2: filterByRadius keeps exactly the records whose distance is at most
the radius (the boundary is inclusive), each with its input multiplicity, in
the original relative order (sublist), and the empty input yields the empty
output. -/
theorem filterByRadius_spec (items : List RankedRecord) (maxRadius : ℚ) :
    (∀ r ∈ filterByRadius items maxRadius, r.distance ≤ maxRadius) ∧
    (∀ r : RankedRecord, (filterByRadius items maxRadius).count r =
      if r.distance ≤ maxRadius then items.count r else 0) ∧
    List.Sublist (filterByRadius items maxRadius) items ∧
    filterByRadius [] maxRadius = [] := by
  refine ⟨?_, ?_, ?_, rfl⟩
  · intro r hr
    have := List.of_mem_filter hr
    simpa using this
  · intro r
    by_cases h : r.distance ≤ maxRadius
    · rw [if_pos h]
      unfold filterByRadius
      exact List.count_filter (by simpa using h)
    · rw [if_neg h]
      refine List.count_eq_zero.mpr ?_
      intro hmem
      exact h (by simpa using List.of_mem_filter hmem)
  · exact List.filter_sublist items

/-- C2 witness: the theorem applied at a concrete list and radius, with the
boundary record (distance equal to the radius) retained. -/
theorem filterByRadius_spec_witness :
    (⟨1, 5⟩ : RankedRecord).distance ≤ (5 : ℚ) :=
  (filterByRadius_spec [⟨0, 3⟩, ⟨1, 5⟩, ⟨2, 7⟩] 5).1 ⟨1, 5⟩ (by decide)

/-- C9: addToSearchHistory preserves the history invariant: provided the
stored history has pairwise distinct queries, after the call the history has
at most 20 items, the new item is first, and queries are again pairwise
distinct (any stored item with the new query was removed first). -/
theorem addToSearchHistory_invariant (history : List SearchHistoryItem)
    (newItem : SearchHistoryItem)
    (hnd : history.Pairwise (fun a b => a.query ≠ b.query)) :
    (addToSearchHistory history newItem).length ≤ 20 ∧
    (addToSearchHistory history newItem).head? = some newItem ∧
    (addToSearchHistory history newItem).Pairwise
      (fun a b => a.query ≠ b.query) := by
  unfold addToSearchHistory
  refine ⟨?_, ?_, ?_⟩
  · exact List.length_take_le 20 _
  · rfl
  · refine List.Pairwise.take ?_
    refine List.pairwise_cons.mpr ⟨?_, ?_⟩
    · intro b hb
      have := List.of_mem_filter hb
      simp only [decide_eq_true_eq] at this
      exact fun h => this h.symm
    · exact List.Pairwise.filter _ hnd

/-- C9 witness: the theorem applied at a concrete history containing an item
with the same query as the new item. -/
theorem addToSearchHistory_invariant_witness :
    (addToSearchHistory [⟨"a", "q1", ⟨1, 2⟩, "t0", "address"⟩]
      ⟨"b", "q1", ⟨3, 4⟩, "t1", "coordinates"⟩).length ≤ 20 :=
  (addToSearchHistory_invariant [⟨"a", "q1", ⟨1, 2⟩, "t0", "address"⟩]
    ⟨"b", "q1", ⟨3, 4⟩, "t1", "coordinates"⟩ (by simp)).1

/-- C4: the nearest-match scan signals its not-found error iff the input list
is empty, and any non-empty input yields exactly one ok result, with no
maximum-distance cutoff: this holds for every distance function, however
large the distances are. -/
theorem getMeterRate_notFound_iff {α : Type} (dist : α → ℚ) (raw : List α) :
    (getMeterRate dist raw = Except.error "No meter found" ↔ raw = []) ∧
    (raw ≠ [] → ∃ best, getMeterRate dist raw = Except.ok best) := by
  constructor
  · constructor
    · intro h
      match raw with
      | [] => rfl
      | x :: xs =>
        rw [getMeterRate, scanBest_cons] at h
        exact absurd h (by simp)
    · rintro rfl
      rfl
  · intro h
    match raw with
    | [] => exact absurd rfl h
    | x :: xs =>
      refine ⟨scanGo dist (x, dist x) xs, ?_⟩
      rw [getMeterRate, scanBest_cons]

/-- C4 witness: the theorem applied at a concrete single faraway record. -/
theorem getMeterRate_notFound_iff_witness :
    ∃ best, getMeterRate (fun x : ℚ => x) [987654] = Except.ok best :=
  (getMeterRate_notFound_iff (fun x : ℚ => x) [987654]).2 (by simp)

/-- C3: on a non-empty input the nearest-match scan returns a record whose
distance is minimal over the whole list, and it is the first record of the
input attaining that minimum: the input splits as l₁ ++ r :: l₂ with every
record of the prefix l₁ at a strictly larger distance. -/
theorem getMeterRate_nearest {α : Type} (dist : α → ℚ) (raw : List α)
    (hne : raw ≠ []) :
    ∃ r l₁ l₂, getMeterRate dist raw = Except.ok (r, dist r) ∧
      raw = l₁ ++ r :: l₂ ∧
      (∀ x ∈ raw, dist r ≤ dist x) ∧
      (∀ x ∈ l₁, dist r < dist x) := by
  match raw with
  | [] => exact absurd rfl hne
  | x :: xs =>
    obtain ⟨h1, h2, h3, h4⟩ := scanGo_spec dist xs (x, dist x) rfl
    set q := scanGo dist (x, dist x) xs with hq
    have hok : getMeterRate dist (x :: xs) = Except.ok (q.1, dist q.1) := by
      rw [getMeterRate, scanBest_cons, ← hq]
      rw [show q = (q.1, q.2) from rfl, h1]
    rcases h4 with h4 | ⟨l₁, l₂, e, hlt, hall⟩
    · refine ⟨q.1, [], xs, hok, ?_, ?_, by simp⟩
      · rw [h4]; rfl
      · intro z hz
        rcases List.mem_cons.mp hz with hz | hz
        · subst hz
          rw [← h1, h4]
        · rw [← h1]; exact h3 z hz
    · refine ⟨q.1, x :: l₁, l₂, hok, by rw [e]; rfl, ?_, ?_⟩
      · intro z hz
        rcases List.mem_cons.mp hz with hz | hz
        · subst hz
          rw [← h1]; exact le_of_lt hlt
        · rw [← h1]; exact h3 z hz
      · intro z hz
        rcases List.mem_cons.mp hz with hz | hz
        · subst hz
          rw [← h1]; exact hlt
        · rw [← h1]; exact hall z hz

/-- C3 witness: the theorem applied at a concrete list with an exact tie;
the first record attaining the minimal distance wins. -/
theorem getMeterRate_nearest_witness :
    ∃ r l₁ l₂,
      getMeterRate (fun x : ℚ => x) [3, 1, 1, 2] = Except.ok (r, r) ∧
      ([3, 1, 1, 2] : List ℚ) = l₁ ++ r :: l₂ ∧
      (∀ x ∈ ([3, 1, 1, 2] : List ℚ), r ≤ x) ∧
      (∀ x ∈ l₁, r < x) :=
  getMeterRate_nearest (fun x : ℚ => x) [3, 1, 1, 2] (by simp)

theorem readArr_writeArr_eq (h : JSHeap) (s : Nat) (v : List RankedRecord)
    (hs : s < List.length h) : readArr (writeArr h s v) s = v := by
  simp only [readArr, writeArr]
  rw [List.getD_eq_getElem?_getD, List.getElem?_set_self (by simpa using hs)]
  rfl

/-- C6: sortByDistance produces a list ordered by ascending distance (so in
particular every adjacent pair is ordered), keeps records with equal
distances in their original input order (stability, stated as: filtering the
output at any fixed distance gives exactly the input filtered at that
distance), and is a permutation of its input. -/
theorem sortByDistance_spec (items : List RankedRecord) :
    List.Pairwise (fun a b => a.distance ≤ b.distance) (sortByDistance items) ∧
    (∀ d : ℚ, (sortByDistance items).filter (fun r => decide (r.distance = d)) =
      items.filter (fun r => decide (r.distance = d))) ∧
    List.Perm (sortByDistance items) items := by
  refine ⟨?_, ?_, List.mergeSort_perm items distLE⟩
  · have hs := List.sorted_mergeSort distLE_trans distLE_total items
    exact hs.imp (fun hab => by simpa [distLE] using hab)
  · intro d
    set p : RankedRecord → Bool := fun r => decide (r.distance = d) with hp
    have hpw : (items.filter p).Pairwise (fun a b => distLE a b = true) := by
      refine List.pairwise_of_forall_mem_list ?_
      intro a ha b hb
      have ha2 : a.distance = d := by
        have := List.of_mem_filter ha
        simpa [hp] using this
      have hb2 : b.distance = d := by
        have := List.of_mem_filter hb
        simpa [hp] using this
      simp [distLE, ha2, hb2]
    have hsub : (items.filter p).Sublist (items.mergeSort distLE) :=
      List.sublist_mergeSort distLE_trans distLE_total hpw
        (List.filter_sublist items)
    have hid : (items.filter p).filter p = items.filter p :=
      List.filter_eq_self.mpr (fun a ha => List.of_mem_filter ha)
    have hsub2 : (items.filter p).Sublist ((items.mergeSort distLE).filter p) := by
      have := hsub.filter p
      rwa [hid] at this
    have hlen : (items.filter p).length =
        ((items.mergeSort distLE).filter p).length :=
      (((List.mergeSort_perm items distLE).filter p).length_eq).symm
    exact (hsub2.eq_of_length hlen).symm

/-- C8: neither heap-level call mutates the array its input ref points to:
after sortByDistanceCall or filterByRadiusCall the input cell holds exactly
the records it held before, the returned ref is a freshly allocated cell
distinct from the input ref, and the fresh cell holds the pure sorted
respectively filtered result. -/
theorem calls_do_not_mutate_input (h : JSHeap) (items : Nat) (maxRadius : ℚ)
    (hr : items < List.length h) :
    (readArr (sortByDistanceCall h items).1 items = readArr h items ∧
      (sortByDistanceCall h items).2 ≠ items ∧
      readArr (sortByDistanceCall h items).1 (sortByDistanceCall h items).2 =
        sortByDistance (readArr h items)) ∧
    (readArr (filterByRadiusCall h items maxRadius).1 items = readArr h items ∧
      (filterByRadiusCall h items maxRadius).2 ≠ items ∧
      readArr (filterByRadiusCall h items maxRadius).1
          (filterByRadiusCall h items maxRadius).2 =
        filterByRadius (readArr h items) maxRadius) := by
  have hne : items ≠ List.length h := Nat.ne_of_lt hr
  constructor
  · refine ⟨?_, fun e => hne e.symm, ?_⟩
    · show readArr (sortInPlace (allocArr h (readArr h items)).1
        (List.length h)) items = readArr h items
      rw [sortInPlace, readArr_writeArr_ne _ _ _ _ hne,
        readArr_allocArr_old _ _ _ hr]
    · show readArr (sortInPlace (allocArr h (readArr h items)).1
        (List.length h)) (List.length h) = sortByDistance (readArr h items)
      rw [sortInPlace, readArr_writeArr_eq, readArr_allocArr_new]
      · rfl
      · simp [allocArr]
  · refine ⟨readArr_allocArr_old _ _ _ hr, fun e => hne e.symm,
      readArr_allocArr_new _ _⟩

/-- C8 witness: the theorem applied at a concrete one-cell heap. -/
theorem calls_do_not_mutate_input_witness :
    readArr (sortByDistanceCall [[⟨0, 3⟩, ⟨1, 1⟩]] 0).1 0 =
      readArr [[⟨0, 3⟩, ⟨1, 1⟩]] 0 :=
  ((calls_do_not_mutate_input [[⟨0, 3⟩, ⟨1, 1⟩]] 0 5 (by simp)).1).1

theorem exceptBind_ok_inv {α β : Type} {x : Except String α}
    {f : α → Except String β} {s : β}
    (h : Bind.bind x f = Except.ok s) :
    ∃ a, x = Except.ok a ∧ f a = Except.ok s := by
  cases x with
  | error e =>
    exact Except.noConfusion
      (show (Except.error e : Except String β) = Except.ok s from h)
  | ok a => exact ⟨a, rfl, h⟩

/-- C10: if the response body is neither an array nor an object carrying an
array under results, data, parking_signs, or signs, the shape-sniffing
getParkingSigns returns (not throws) the empty list; every sign the per-item
mapping returns has a string id and JS-number latitude, longitude and
distance fields by the type of ParkingSign, and its distance is exactly 0
when the item carries neither a distance nor a dist field; and a null list
element, whose plain property accesses throw in JS, makes the mapping throw
a TypeError instead of returning a sign. -/
theorem getParkingSigns_shape (parseNum : String → Option ℚ)
    (numToStr : ℚ → String) (raw : JsonValue)
    (hnotarr : ∀ xs, raw ≠ JsonValue.arr xs)
    (h1 : asArray (getFieldOpt (some raw) "results") = none)
    (h2 : asArray (getFieldOpt (some raw) "data") = none)
    (h3 : asArray (getFieldOpt (some raw) "parking_signs") = none)
    (h4 : asArray (getFieldOpt (some raw) "signs") = none) :
    getParkingSigns parseNum numToStr raw = Except.ok [] ∧
    (∀ (item : JsonValue) (index : Nat) (sign : ParkingSign),
      toParkingSign parseNum numToStr item index = Except.ok sign →
      getField (some item) "distance" = Except.ok none →
      getField (some item) "dist" = Except.ok none →
      sign.distance = some 0) ∧
    (∀ index : Nat,
      toParkingSign parseNum numToStr JsonValue.null index =
        Except.error "TypeError") := by
  refine ⟨?_, ?_, ?_⟩
  · have hsel : selectList raw = [] := by
      cases raw with
      | arr xs => exact absurd rfl (hnotarr xs)
      | null => rfl
      | bool b => rfl
      | num q => rfl
      | str s => rfl
      | obj fields => simp [selectList, h1, h2, h3, h4]
    show (selectList raw).enum.mapM
      (fun p => toParkingSign parseNum numToStr p.2 p.1) = Except.ok []
    rw [hsel]
    rfl
  · intro item index sign hok hd hd2
    unfold toParkingSign at hok
    obtain ⟨latV, hlatV, hok⟩ := exceptBind_ok_inv hok
    obtain ⟨lonV, hlonV, hok⟩ := exceptBind_ok_inv hok
    obtain ⟨distV, hdistV, hok⟩ := exceptBind_ok_inv hok
    rw [hd] at hdistV
    simp only [coalesceField] at hdistV
    rw [hd2] at hdistV
    simp only [coalesceField, Except.ok.injEq] at hdistV
    obtain ⟨streetV, hstreetV, hok⟩ := exceptBind_ok_inv hok
    obtain ⟨descV, hdescV, hok⟩ := exceptBind_ok_inv hok
    obtain ⟨idV, hidV, hok⟩ := exceptBind_ok_inv hok
    obtain ⟨stV, hstV, hok⟩ := exceptBind_ok_inv hok
    obtain ⟨rgV, hrgV, hok⟩ := exceptBind_ok_inv hok
    obtain ⟨boV, hboV, hok⟩ := exceptBind_ok_inv hok
    obtain ⟨crV, hcrV, hok⟩ := exceptBind_ok_inv hok
    obtain ⟨upV, hupV, hok⟩ := exceptBind_ok_inv hok
    have heq := Except.ok.inj hok
    rw [← heq, ← hdistV]
    rfl
  · intro index
    rfl

/-- C10 witness: the theorem applied at a plain-number body. -/
theorem getParkingSigns_shape_witness :
    getParkingSigns (fun _ => none) (fun _ => "") (JsonValue.num 5) =
      Except.ok [] :=
  (getParkingSigns_shape (fun _ => none) (fun _ => "") (JsonValue.num 5)
    (fun _ h => JsonValue.noConfusion h) rfl rfl rfl rfl).1

/-- C5: for all real coordinate pairs (hence in particular all finite
in-range ones) the Haversine distance is non-negative, is exactly 0 on
identical coordinates (so within any tolerance), and is exactly symmetric
under swapping the two points. -/
theorem calculateDistance_props (lat1 lon1 lat2 lon2 : ℝ) :
    0 ≤ calculateDistance lat1 lon1 lat2 lon2 ∧
    calculateDistance lat1 lon1 lat1 lon1 = 0 ∧
    calculateDistance lat1 lon1 lat2 lon2 =
      calculateDistance lat2 lon2 lat1 lon1 := by
  refine ⟨?_, ?_, ?_⟩
  · unfold calculateDistance
    refine mul_nonneg (by norm_num) (mul_nonneg (by norm_num) ?_)
    exact atan2_nonneg _ _ (Real.sqrt_nonneg _)
  · rw [calculateDistance, haversineA_self, Real.sqrt_zero, sub_zero,
      Real.sqrt_one, atan2_zero_one]
    ring
  · rw [calculateDistance, calculateDistance, haversineA_sym]
